import Mathlib

/-!
Verification of the `dhcp-proxy-ipxe` ("booter") network-boot helper.

The Go sources are shallowly embedded: byte slices become `List Nat`
(each element a byte value), fallible functions return `Except String`,
and external collaborators (the image-factory upstream, the host's
routable-IP enumeration, the HTTP response writer) are passed in as
explicit parameters, so every definition is executable.
-/

namespace Booter

/-- Byte view of an ASCII string, used to embed Go `[]byte` values. -/
def strBytes (s : String) : List Nat :=
  s.toList.map Char.toNat

/-- Whether `needle` starts `haystack` (Go `bytes.HasPrefix`). -/
def startsList : List Nat → List Nat → Bool
  | [], _ => true
  | _ :: _, [] => false
  | a :: as, b :: bs => a == b && startsList as bs

/-- First index at which `needle` occurs in `haystack`; `none` when absent.
Embeds Go `bytes.Index` (which returns `-1` for absence). -/
def bytesIndex : List Nat → List Nat → Option Nat
  | hs, needle =>
    if startsList needle hs then some 0
    else
      match hs with
      | [] => none
      | _ :: t => (bytesIndex t needle).map (· + 1)

/-- Embeds `placeholderStart` from `internal/server/ipxe/patch.go`. -/
def placeholderStart : List Nat := strBytes "# *PLACEHOLDER START*"

/-- Embeds `placeholderEnd` from `internal/server/ipxe/patch.go`. -/
def placeholderEnd : List Nat := strBytes "# *PLACEHOLDER END*"

/-- Embeds `patchScript` from `internal/server/ipxe/patch.go`, with the file
contents read from `source` passed in as `contents` and the bytes written to
`destination` returned on success.  The Go `copy(contents[start:end], script)`
on the padded script (whose length is exactly `end - start`) is the
`take`/`append`/`drop` splice below; the indices are in range because they
come from found marker occurrences. -/
def patchScript (contents script : List Nat) : Except String (List Nat) :=
  match bytesIndex contents placeholderStart with
  | none => .error "placeholder start not found"
  | some start =>
    match bytesIndex contents placeholderEnd with
    | none => .error "placeholder end not found"
    | some e =>
      if e < start then .error "placeholder end before start"
      else
        let e2 := e + placeholderEnd.length
        let length := e2 - start
        if script.length > length then
          .error "script size is larger than placeholder space"
        else
          let padded := script ++ List.replicate (length - script.length) 10
          .ok (contents.take start ++ padded ++ contents.drop e2)

theorem startsList_length {needle hs : List Nat} (h : startsList needle hs = true) :
    needle.length ≤ hs.length := by
  induction needle generalizing hs with
  | nil => simp
  | cons a as ih =>
    cases hs with
    | nil => simp [startsList] at h
    | cons b bs =>
      simp only [startsList, Bool.and_eq_true] at h
      simpa using ih h.2

theorem bytesIndex_le {hs needle : List Nat} {i : Nat}
    (h : bytesIndex hs needle = some i) : i + needle.length ≤ hs.length := by
  induction hs generalizing i with
  | nil =>
    unfold bytesIndex at h
    split at h
    · next hpre =>
      cases h
      have hl := startsList_length hpre
      simp only [List.length_nil] at hl ⊢
      omega
    · simp at h
  | cons b bs ih =>
    unfold bytesIndex at h
    split at h
    · next hpre =>
      cases h
      have hl := startsList_length hpre
      simp only [List.length_cons] at hl ⊢
      omega
    · simp only [Option.map_eq_some'] at h
      obtain ⟨j, hj, hji⟩ := h
      have hl := ih hj
      simp only [List.length_cons]
      omega

/-- C1: `patchScript` postcondition.  For a source byte string whose start
marker first occurs at `s` and whose end marker first occurs at `e ≥ s`, with
`region = (e + |endMarker|) - s`: if the script is longer than `region` the
operation fails; otherwise the output is the source with `[s, s+region)`
replaced by the script padded on the right with newline bytes to exactly
`region`, everything outside unchanged and the total length preserved.  If a
marker is absent, or the end marker's first occurrence precedes the start
marker's, the operation fails. -/
theorem patchScript_postcondition (contents script : List Nat) :
    (bytesIndex contents placeholderStart = none →
      ∃ msg, patchScript contents script = .error msg) ∧
    (bytesIndex contents placeholderEnd = none →
      ∃ msg, patchScript contents script = .error msg) ∧
    (∀ s e, bytesIndex contents placeholderStart = some s →
      bytesIndex contents placeholderEnd = some e →
      (e < s → ∃ msg, patchScript contents script = .error msg) ∧
      (s ≤ e →
        (script.length > e + placeholderEnd.length - s →
          ∃ msg, patchScript contents script = .error msg) ∧
        (script.length ≤ e + placeholderEnd.length - s →
          patchScript contents script =
            .ok (contents.take s ++
              (script ++
                List.replicate (e + placeholderEnd.length - s - script.length) 10) ++
              contents.drop (e + placeholderEnd.length)) ∧
          (contents.take s ++
              (script ++
                List.replicate (e + placeholderEnd.length - s - script.length) 10) ++
              contents.drop (e + placeholderEnd.length)).length = contents.length))) := by
  refine ⟨?_, ?_, ?_⟩
  · intro h1
    exact ⟨"placeholder start not found", by simp [patchScript, h1]⟩
  · intro h2
    cases h1 : bytesIndex contents placeholderStart with
    | none => exact ⟨"placeholder start not found", by simp [patchScript, h1]⟩
    | some s => exact ⟨"placeholder end not found", by simp [patchScript, h1, h2]⟩
  · intro s e h1 h2
    constructor
    · intro hlt
      exact ⟨"placeholder end before start", by simp [patchScript, h1, h2, hlt]⟩
    · intro hse
      constructor
      · intro hgt
        exact ⟨"script size is larger than placeholder space", by simp [patchScript, h1, h2, Nat.not_lt.mpr hse, hgt]⟩
      · intro hfits
        have hnlt : ¬ e < s := Nat.not_lt.mpr hse
        have hngt : ¬ script.length > e + placeholderEnd.length - s :=
          Nat.not_lt.mpr hfits
        constructor
        · simp [patchScript, h1, h2, hnlt, hngt]
        · have hsle : s + placeholderStart.length ≤ contents.length := bytesIndex_le h1
          have hele : e + placeholderEnd.length ≤ contents.length := bytesIndex_le h2
          simp only [List.length_append, List.length_take, List.length_replicate,
            List.length_drop]
          omega

/-- Witness for C1: a concrete source made of the two markers back to back,
patched with the 6-byte script `#!ipxe`; the region is all 40 bytes. -/
theorem patchScript_postcondition_witness :
    bytesIndex (placeholderStart ++ placeholderEnd) placeholderStart = some 0 ∧
    bytesIndex (placeholderStart ++ placeholderEnd) placeholderEnd = some 21 ∧
    (0 : Nat) ≤ 21 ∧
    (strBytes "#!ipxe").length ≤ 21 + placeholderEnd.length - 0 ∧
    patchScript (placeholderStart ++ placeholderEnd) (strBytes "#!ipxe") =
      .ok ((placeholderStart ++ placeholderEnd).take 0 ++
        (strBytes "#!ipxe" ++
          List.replicate (21 + placeholderEnd.length - 0 - (strBytes "#!ipxe").length) 10) ++
        (placeholderStart ++ placeholderEnd).drop (21 + placeholderEnd.length)) :=
  ⟨by decide, by decide, by decide, by decide,
    ((((patchScript_postcondition (placeholderStart ++ placeholderEnd)
        (strBytes "#!ipxe")).2.2 0 21 (by decide) (by decide)).2
        (by decide)).2 (by decide)).1⟩

theorem startsList_self_append (p m : List Nat) : startsList p (p ++ m) = true := by
  induction p with
  | nil => simp [startsList]
  | cons a as ih => simp [startsList, ih]

theorem startsList_append_right {p l : List Nat} (m : List Nat)
    (h : startsList p l = true) : startsList p (l ++ m) = true := by
  induction p generalizing l with
  | nil => simp [startsList]
  | cons a as ih =>
    cases l with
    | nil => simp [startsList] at h
    | cons b bs =>
      simp only [List.cons_append, startsList, Bool.and_eq_true] at h ⊢
      exact ⟨h.1, ih h.2⟩

/-- C2 counterexample: a successful `patchScript` run after which neither
placeholder marker occurs in the output, refuting "the markers are still
present" — the patch overwrites the whole region, markers included. -/
theorem patchScript_markers_not_preserved_cex :
    patchScript (placeholderStart ++ placeholderEnd) (strBytes "#!ipxe") =
      .ok (strBytes "#!ipxe" ++ List.replicate 34 10) ∧
    bytesIndex (strBytes "#!ipxe" ++ List.replicate 34 10) placeholderStart = none ∧
    bytesIndex (strBytes "#!ipxe" ++ List.replicate 34 10) placeholderEnd = none :=
  ⟨by rfl, by decide, by decide⟩

theorem startsList_trans {a b c : List Nat} (h1 : startsList a b = true)
    (h2 : startsList b c = true) : startsList a c = true := by
  induction a generalizing b c with
  | nil => simp [startsList]
  | cons x xs ih =>
    cases b with
    | nil => simp [startsList] at h1
    | cons y ys =>
      cases c with
      | nil => simp [startsList] at h2
      | cons z zs =>
        simp only [startsList, Bool.and_eq_true, beq_iff_eq] at h1 h2 ⊢
        exact ⟨h1.1.trans h2.1, ih h1.2 h2.2⟩

theorem patchScript_ok_script_at {contents script out : List Nat}
    (hok : patchScript contents script = .ok out) :
    ∃ s, bytesIndex contents placeholderStart = some s ∧
      startsList script (out.drop s) = true := by
  cases h1 : bytesIndex contents placeholderStart with
  | none => simp [patchScript, h1] at hok
  | some s =>
    cases h2 : bytesIndex contents placeholderEnd with
    | none => simp [patchScript, h1, h2] at hok
    | some e =>
      by_cases hlt : e < s
      · simp [patchScript, h1, h2, hlt] at hok
      · by_cases hgt : script.length > e + placeholderEnd.length - s
        · simp [patchScript, h1, h2, hlt, hgt] at hok
        · simp only [patchScript, h1, h2, if_neg hlt, if_neg hgt, Except.ok.injEq] at hok
          have hsle : s + placeholderStart.length ≤ contents.length := bytesIndex_le h1
          have htake : (contents.take s).length = s := by
            simp only [List.length_take]
            omega
          have hdrop : out.drop s =
              (script ++ List.replicate (e + placeholderEnd.length - s - script.length) 10) ++
                contents.drop (e + placeholderEnd.length) := by
            rw [← hok, List.append_assoc, List.drop_left' htake]
          refine ⟨s, rfl, ?_⟩
          rw [hdrop, List.append_assoc]
          exact startsList_self_append _ _

/-- C2 (amended): after every successful run of `patchScript`, the byte range
that held the placeholder — starting at the start marker's former offset —
now holds the script padded with newline bytes: the script starts the output
at that offset, so when the script begins with `#!ipxe` the patched region's
content begins with `#!ipxe`.  The markers themselves are overwritten and in
general no longer present. -/
theorem patchScript_region_begins_with_script (contents script out : List Nat)
    (hok : patchScript contents script = .ok out) :
    ∃ s, bytesIndex contents placeholderStart = some s ∧
      startsList script (out.drop s) = true ∧
      (startsList (strBytes "#!ipxe") script = true →
        startsList (strBytes "#!ipxe") (out.drop s) = true) := by
  obtain ⟨s, hs, hpre⟩ := patchScript_ok_script_at hok
  exact ⟨s, hs, hpre, fun hsh => startsList_trans hsh hpre⟩

/-- Witness for C2's amended theorem: the concrete successful patch from the
counterexample input, whose output begins with `#!ipxe` at offset 0. -/
theorem patchScript_region_begins_with_script_witness :
    patchScript (placeholderStart ++ placeholderEnd) (strBytes "#!ipxe") =
      .ok (strBytes "#!ipxe" ++ List.replicate 34 10) ∧
    ∃ s, bytesIndex (placeholderStart ++ placeholderEnd) placeholderStart = some s ∧
      startsList (strBytes "#!ipxe")
        ((strBytes "#!ipxe" ++ List.replicate 34 10).drop s) = true ∧
      (startsList (strBytes "#!ipxe") (strBytes "#!ipxe") = true →
        startsList (strBytes "#!ipxe")
          ((strBytes "#!ipxe" ++ List.replicate 34 10).drop s) = true) :=
  ⟨by rfl,
    by
      have h := patchScript_region_begins_with_script
        (placeholderStart ++ placeholderEnd) (strBytes "#!ipxe")
        (strBytes "#!ipxe" ++ List.replicate 34 10) (by rfl)
      obtain ⟨s, hs, hpre, hsh⟩ := h
      exact ⟨s, hs, hpre, fun _ => hpre⟩⟩

/-- Schematic document the image-factory client posts upstream
(`schematic.Schematic` with `customization.extraKernelArgs` and
`customization.systemExtensions.officialExtensions`). -/
structure Schematic where
  extraKernelArgs : List String
  extensions : List String
deriving DecidableEq

/-- Embeds `SchematicIPXEURL` from the `imagefactory` client.  The upstream
`SchematicCreate` call is external and passed in as `upstream`; the YAML
marshalling of the schematic (which cannot fail on these plain fields) and
the 10-second call timeout are not modelled. -/
def SchematicIPXEURL (pxeBaseURL : String) (secureBootEnabled : Bool)
    (upstream : Schematic → Except String String)
    (talosVersion arch : String) (extensions extraKernelArgs : List String) :
    Except String String :=
  if talosVersion = "" then .error "talosVersion is required"
  else
    match upstream { extraKernelArgs := extraKernelArgs, extensions := extensions } with
    | .error e => .error ("failed to create schematic: " ++ e)
    | .ok schematicID =>
      let ipxeURL :=
        pxeBaseURL ++ "/pxe/" ++ schematicID ++ "/" ++ talosVersion ++ "/metal-" ++ arch
      .ok (if secureBootEnabled then ipxeURL ++ "-secureboot" else ipxeURL)

/-- C3: `SchematicIPXEURL` rejects an empty version without consulting the
upstream; when the upstream `SchematicCreate` succeeds with ID `id` the URL is
exactly `pxeBaseURL ++ "/pxe/" ++ id ++ "/" ++ version ++ "/metal-" ++ arch`,
with `-secureboot` appended iff secure boot is enabled; every upstream failure
is surfaced as an error. -/
theorem SchematicIPXEURL_spec (pxeBaseURL : String) (secureBootEnabled : Bool)
    (upstream : Schematic → Except String String)
    (talosVersion arch : String) (extensions extraKernelArgs : List String) :
    (talosVersion = "" →
      SchematicIPXEURL pxeBaseURL secureBootEnabled upstream
          talosVersion arch extensions extraKernelArgs =
        .error "talosVersion is required" ∧
      ∀ upstream2, SchematicIPXEURL pxeBaseURL secureBootEnabled upstream2
          talosVersion arch extensions extraKernelArgs =
        SchematicIPXEURL pxeBaseURL secureBootEnabled upstream
          talosVersion arch extensions extraKernelArgs) ∧
    (∀ id, talosVersion ≠ "" →
      upstream { extraKernelArgs := extraKernelArgs, extensions := extensions } = .ok id →
      SchematicIPXEURL pxeBaseURL secureBootEnabled upstream
          talosVersion arch extensions extraKernelArgs =
        .ok (pxeBaseURL ++ "/pxe/" ++ id ++ "/" ++ talosVersion ++ "/metal-" ++ arch ++
          (if secureBootEnabled then "-secureboot" else ""))) ∧
    (∀ e, talosVersion ≠ "" →
      upstream { extraKernelArgs := extraKernelArgs, extensions := extensions } = .error e →
      SchematicIPXEURL pxeBaseURL secureBootEnabled upstream
          talosVersion arch extensions extraKernelArgs =
        .error ("failed to create schematic: " ++ e)) := by
  refine ⟨?_, ?_, ?_⟩
  · intro hv
    refine ⟨by simp [SchematicIPXEURL, hv], fun upstream2 => by simp [SchematicIPXEURL, hv]⟩
  · intro id hv hup
    cases hsb : secureBootEnabled <;>
      simp [SchematicIPXEURL, hv, hup, String.append_assoc]
  · intro e hv hup
    simp [SchematicIPXEURL, hv, hup]

/-- Witness for C3: a deterministic upstream returning ID `abc123`; the
resulting URL for `v1.8.0`/`arm64` without secure boot. -/
theorem SchematicIPXEURL_spec_witness :
    ("v1.8.0" : String) ≠ "" ∧
    SchematicIPXEURL "https://pxe.factory.talos.dev" false (fun _ => .ok "abc123")
        "v1.8.0" "arm64" [] ["foo=bar"] =
      .ok ("https://pxe.factory.talos.dev" ++ "/pxe/" ++ "abc123" ++ "/" ++ "v1.8.0" ++
        "/metal-" ++ "arm64" ++ (if false then "-secureboot" else "")) :=
  ⟨by decide,
    (SchematicIPXEURL_spec "https://pxe.factory.talos.dev" false (fun _ => .ok "abc123")
      "v1.8.0" "arm64" [] ["foo=bar"]).2.1 "abc123" (by decide) rfl⟩

/-- Embeds `initScriptName` from `internal/server/ipxe/handler.go`. -/
def initScriptName : String := "init.ipxe"

/-- Embeds `bootScriptName` from `internal/server/ipxe/handler.go`. -/
def bootScriptName : String := "boot.ipxe"

/-- Modelled from the spec: `constants.IPXEURLPath` (the `constants` package is
not among the provided sources); the spec's template contract chains to
`http://{endpoint}:{port}/ipxe/boot.ipxe?…` and the template inserts a `/`
before this path segment, so the segment is `ipxe`. -/
def IPXEURLPath : String := "ipxe"

/-- Rendered text of `bootTemplate` from `internal/server/ipxe/patch.go` for a
given endpoint and port.  Go `text/template` comment actions `\x7b\x7b/* … */\x7d\x7d`
render as empty text with the surrounding literal whitespace (their lines'
leading tabs and trailing newlines) preserved; the three substitution points
are `.Endpoint`, `.Port` and `.ScriptPath`. -/
def renderBootTemplate (endpoint : String) (port : Int) : String :=
  String.intercalate "\n"
    [ "#!ipxe"
    , "prompt --key 0x02 --timeout 2000 Press Ctrl-B for the iPXE command line... && shell ||"
    , ""
    , ""
    , "ifstat"
    , ""
    , ""
    , "set attempts:int32 10"
    , "set x:int32 0"
    , ""
    , ":retry_loop"
    , ""
    , "\tset idx:int32 0"
    , ""
    , "\t:loop"
    , "\t\t"
    , "\t\tisset $\x7bnet$\x7bidx\x7d/mac\x7d || goto exhausted"
    , ""
    , "\t\tifclose"
    , "\t\tiflinkwait --timeout 5000 net$\x7bidx\x7d || goto next_iface"
    , "\t\tdhcp net$\x7bidx\x7d || goto next_iface"
    , "\t\tgoto boot"
    , ""
    , "\t:next_iface"
    , "\t\tinc idx && goto loop"
    , ""
    , "\t:boot"
    , "\t\t"
    , "\t\troute"
    , ""
    , "\t\tchain --replace http://" ++ endpoint ++ ":" ++ toString port ++ "/" ++
        IPXEURLPath ++ "/" ++ bootScriptName ++
        "?uuid=$\x7buuid\x7d&mac=$\x7bnet$\x7bidx\x7d/mac:hexhyp\x7d&domain=$\x7bdomain\x7d&hostname=$\x7bhostname\x7d&serial=$\x7bserial\x7d&arch=$\x7bbuildarch\x7d || goto next_iface"
    , ""
    , ":exhausted"
    , "\techo"
    , "\techo Failed to iPXE boot successfully via all interfaces"
    , ""
    , "\tiseq $\x7bx\x7d $\x7battempts\x7d && goto fail ||"
    , ""
    , "\techo Retrying..."
    , "\techo"
    , ""
    , "\tinc x"
    , "\tgoto retry_loop"
    , ""
    , ":fail"
    , "\techo"
    , "\techo Failed to get a valid response after $\x7battempts\x7d attempts"
    , "\techo"
    , ""
    , "\techo Rebooting in 5 seconds..."
    , "\tsleep 5"
    , "\treboot"
    , "" ]

/-- Embeds `buildInitScript` from `internal/server/ipxe/patch.go`: the byte
buffer obtained by executing `bootTemplate` with the endpoint, the port and
`ScriptPath = IPXEURLPath ++ "/" ++ bootScriptName` (template execution cannot
fail on these plain fields, so the Go error return is always nil). -/
def buildInitScript (endpoint : String) (port : Int) : List Nat :=
  strBytes (renderBootTemplate endpoint port)

/-- Embeds `patchBinaries` from `internal/server/ipxe/patch.go` over explicit
file contents: each input binary is patched with the same `initScript` via
`patchScript`, stopping at the first failure.  The fixed on-disk path list and
the external `zbin` recompression of the BIOS artifact are outside the
model. -/
def patchBinaries (initScript : List Nat) : List (List Nat) → Except String (List (List Nat))
  | [] => .ok []
  | contents :: rest =>
    match patchScript contents initScript with
    | .error e => .error e
    | .ok patched =>
      match patchBinaries initScript rest with
      | .error e => .error e
      | .ok outs => .ok (patched :: outs)

/-- Embeds `HandlerOptions` from `internal/server/ipxe/handler.go`. -/
structure HandlerOptions where
  APIAdvertiseAddress : String
  TalosVersion : String
  ExtraKernelArgs : String
  Extensions : List String
  APIPort : Int

/-- Embeds `Handler` from `internal/server/ipxe/handler.go` (the image-factory
client and the logger are passed at call sites instead of being stored). -/
structure Handler where
  kernelArgs : List String
  initScript : List Nat
  options : HandlerOptions

/-- ASCII whitespace recognized by Go `unicode.IsSpace` (the non-ASCII
whitespace code points never occur in kernel-arg strings). -/
def goIsSpace (c : Char) : Bool :=
  c = ' ' || c = '\t' || c = '\n' || c = '\x0b' || c = '\x0c' || c = '\r'

/-- Splitter for Go `strings.Fields`: maximal runs of non-whitespace. -/
def fieldsAux : List Char → List Char → List (List Char)
  | [], acc => if acc.isEmpty then [] else [acc.reverse]
  | c :: cs, acc =>
    if goIsSpace c then
      if acc.isEmpty then fieldsAux cs [] else acc.reverse :: fieldsAux cs []
    else fieldsAux cs (c :: acc)

/-- Embeds Go `strings.Fields`. -/
def stringFields (s : String) : List String :=
  (fieldsAux s.toList []).map fun cs => String.mk cs

/-- Embeds Go `net.JoinHostPort`. -/
def JoinHostPort (host port : String) : String :=
  if host.toList.contains ':' || host.toList.contains '%' then
    "[" ++ host ++ "]:" ++ port
  else host ++ ":" ++ port

/-- Modelled from the spec: `constants.KernelParamConfig` of the Talos
machinery (external dependency), the kernel parameter named in the spec's
`talos.config=…` argument. -/
def KernelParamConfig : String := "talos.config"

/-- Embeds `NewHandler` from `internal/server/ipxe/handler.go` over explicit
input binary contents: renders the init script once, patches every binary
with it, splits the configured extra kernel args into fields and, when the
machine-config server is enabled, appends the static `talos.config=…`
argument.  Returns the handler together with the patched outputs. -/
def NewHandler (configServerEnabled : Bool) (options : HandlerOptions)
    (inputBinaries : List (List Nat)) : Except String (Handler × List (List Nat)) :=
  let initScript := buildInitScript options.APIAdvertiseAddress options.APIPort
  match patchBinaries initScript inputBinaries with
  | .error e => .error e
  | .ok outs =>
    let kernelArgs := stringFields options.ExtraKernelArgs
    let kernelArgs :=
      if configServerEnabled then
        kernelArgs ++ [KernelParamConfig ++ "=" ++
          ("http://" ++
            JoinHostPort options.APIAdvertiseAddress (toString options.APIPort) ++
            "/config?u=$\x7buuid\x7d")]
      else kernelArgs
    .ok ({ kernelArgs := kernelArgs, initScript := initScript, options := options }, outs)

/-- Embeds `consoleKernelArgs` from `internal/server/ipxe/handler.go`. -/
def consoleKernelArgs (arch : String) : List String :=
  if arch = "arm64" then ["console=tty0", "console=ttyAMA0"]
  else ["console=tty0", "console=ttyS0"]

/-- Architecture normalization performed inline by `ServeHTTP`
(`handler.go:89-91`): everything other than the literal `arm64` becomes
`amd64`. -/
def normalizeArch (arch : String) : String :=
  if arch ≠ "arm64" then "amd64" else arch

/-- Signature of `ImageFactoryClient.SchematicIPXEURL` as seen by the handler:
talos version, arch, extensions, extra kernel args. -/
abbrev FactoryFn := String → String → List String → List String → Except String String

/-- Embeds `bootViaFactoryIPXEScript` from `internal/server/ipxe/handler.go`:
asks the image-factory client for the PXE URL and renders
`ipxeScriptTemplateFormat` around it, with status 200 on success. -/
def bootViaFactoryIPXEScript (factory : FactoryFn)
    (talosVersion arch : String) (extensions kernelArgs : List String) :
    Except String (String × Nat) :=
  match factory talosVersion arch extensions kernelArgs with
  | .error e => .error ("failed to get schematic IPXE URL: " ++ e)
  | .ok ipxeURL => .ok ("#!ipxe\nchain --replace " ++ ipxeURL ++ "\n", 200)

/-- Denotation of one HTTP exchange: status code, `Content-Type` header if
set, and the bytes written to the body. -/
structure HTTPResponse where
  status : Nat
  contentType : Option String
  body : List Nat
deriving DecidableEq

/-- Embeds `ServeHTTP` (and `handleInitScript`) from
`internal/server/ipxe/handler.go`: the `\x7bscript\x7d` path value selects the init
script, the boot script (which consults the image factory with the static
kernel args plus the console args for the normalized arch), or a 404. -/
def ServeHTTP (handler : Handler) (factory : FactoryFn)
    (script uuid mac arch : String) : HTTPResponse :=
  if script = initScriptName then
    { status := 200, contentType := some "text/plain", body := handler.initScript }
  else if script = bootScriptName then
    let archN := if arch ≠ "arm64" then "amd64" else arch
    let kernelArgs := handler.kernelArgs ++ consoleKernelArgs archN
    match bootViaFactoryIPXEScript factory handler.options.TalosVersion archN
        handler.options.Extensions kernelArgs with
    | .error e =>
      { status := 500, contentType := none,
        body := strBytes ("failed to get iPXE script: " ++ e) }
    | .ok (body, statusCode) =>
      { status := statusCode, contentType := none, body := strBytes body }
  else { status := 404, contentType := none, body := [] }

/-- Kernel-arg list a `boot.ipxe` request hands to the image-factory client:
the handler's static args followed by the console args for the normalized
architecture (`handler.go:97`). -/
def bootKernelArgs (handler : Handler) (arch : String) : List String :=
  handler.kernelArgs ++ consoleKernelArgs (normalizeArch arch)

/-- C4 counterexample: with machine-config serving enabled and one user arg,
the kernel-arg list a `boot.ipxe` request passes to the image factory places
the static `talos.config=…` argument between the user args and the console
args, not after the console args as the claim orders them. -/
theorem bootKernelArgs_order_cex :
    ((NewHandler true
        { APIAdvertiseAddress := "10.0.0.5", TalosVersion := "v1.8.0",
          ExtraKernelArgs := "foo", Extensions := [], APIPort := 50084 }
        []).toOption.map fun p => bootKernelArgs p.1 "amd64") =
      some ["foo", "talos.config=http://10.0.0.5:50084/config?u=$\x7buuid\x7d",
        "console=tty0", "console=ttyS0"] ∧
    ((NewHandler true
        { APIAdvertiseAddress := "10.0.0.5", TalosVersion := "v1.8.0",
          ExtraKernelArgs := "foo", Extensions := [], APIPort := 50084 }
        []).toOption.map fun p => bootKernelArgs p.1 "amd64") ≠
      some ["foo", "console=tty0", "console=ttyS0",
        "talos.config=http://10.0.0.5:50084/config?u=$\x7buuid\x7d"] := by
  constructor
  · decide
  · decide

/-- C4 (amended): for every `boot.ipxe` request, the kernel-arg list passed to
the image-factory client equals, in order: the user-supplied extra kernel
args, then — only when machine-config serving is enabled — the single static
`talos.config=http://{advertise}:{port}/config?u=${uuid}` argument fixed at
handler construction (not computed per request), then the console args for
the normalized architecture (`arm64` ↦ `console=tty0, console=ttyAMA0`,
otherwise `console=tty0, console=ttyS0`); and the `boot.ipxe` response is a
function of the factory's answer at exactly that list. -/
theorem bootKernelArgs_spec (configServerEnabled : Bool) (opts : HandlerOptions)
    (inputs : List (List Nat)) (handler : Handler) (outs : List (List Nat))
    (arch : String)
    (hok : NewHandler configServerEnabled opts inputs = .ok (handler, outs)) :
    bootKernelArgs handler arch =
      stringFields opts.ExtraKernelArgs ++
        (if configServerEnabled then
          [KernelParamConfig ++ "=" ++
            ("http://" ++ JoinHostPort opts.APIAdvertiseAddress (toString opts.APIPort) ++
              "/config?u=$\x7buuid\x7d")]
        else []) ++
        (if arch = "arm64" then ["console=tty0", "console=ttyAMA0"]
        else ["console=tty0", "console=ttyS0"]) ∧
    (∀ factory uuid mac,
      ServeHTTP handler factory bootScriptName uuid mac arch =
        match factory opts.TalosVersion (normalizeArch arch) opts.Extensions
            (bootKernelArgs handler arch) with
        | .error e =>
          { status := 500, contentType := none,
            body := strBytes
              ("failed to get iPXE script: failed to get schematic IPXE URL: " ++ e) }
        | .ok u =>
          { status := 200, contentType := none,
            body := strBytes ("#!ipxe\nchain --replace " ++ u ++ "\n") }) := by
  cases hpbm : patchBinaries
      (buildInitScript opts.APIAdvertiseAddress opts.APIPort) inputs with
  | error e =>
    simp [NewHandler, hpbm] at hok
  | ok o =>
    simp only [NewHandler, hpbm, Except.ok.injEq, Prod.mk.injEq] at hok
    obtain ⟨hh, ho⟩ := hok
    subst hh
    constructor
    · by_cases harch : arch = "arm64" <;>
        cases configServerEnabled <;>
          simp [bootKernelArgs, consoleKernelArgs, normalizeArch, harch]
    · intro factory uuid mac
      by_cases harch : arch = "arm64"
      · cases hfac : factory opts.TalosVersion (normalizeArch arch) opts.Extensions
            (bootKernelArgs _ arch) <;>
          simp_all [ServeHTTP, bootViaFactoryIPXEScript, bootKernelArgs,
            normalizeArch, bootScriptName, initScriptName, strBytes,
            String.append_assoc]
      · cases hfac : factory opts.TalosVersion (normalizeArch arch) opts.Extensions
            (bootKernelArgs _ arch) <;>
          simp_all [ServeHTTP, bootViaFactoryIPXEScript, bootKernelArgs,
            normalizeArch, bootScriptName, initScriptName, strBytes,
            String.append_assoc]

/-- Witness for C4's amended theorem at a concrete handler with config serving
enabled, one user arg and an `amd64` request. -/
theorem bootKernelArgs_spec_witness :
    NewHandler true
      { APIAdvertiseAddress := "10.0.0.5", TalosVersion := "v1.8.0",
        ExtraKernelArgs := "foo", Extensions := [], APIPort := 50084 } [] =
      .ok ({ kernelArgs := ["foo", "talos.config=http://10.0.0.5:50084/config?u=$\x7buuid\x7d"],
             initScript := buildInitScript "10.0.0.5" 50084,
             options :=
              { APIAdvertiseAddress := "10.0.0.5", TalosVersion := "v1.8.0",
                ExtraKernelArgs := "foo", Extensions := [], APIPort := 50084 } }, []) ∧
    bootKernelArgs
        { kernelArgs := ["foo", "talos.config=http://10.0.0.5:50084/config?u=$\x7buuid\x7d"],
          initScript := buildInitScript "10.0.0.5" 50084,
          options :=
            { APIAdvertiseAddress := "10.0.0.5", TalosVersion := "v1.8.0",
              ExtraKernelArgs := "foo", Extensions := [], APIPort := 50084 } } "amd64" =
      stringFields "foo" ++
        (if true then
          [KernelParamConfig ++ "=" ++
            ("http://" ++ JoinHostPort "10.0.0.5" (toString (50084 : Int)) ++
              "/config?u=$\x7buuid\x7d")]
        else []) ++
        (if "amd64" = "arm64" then ["console=tty0", "console=ttyAMA0"]
        else ["console=tty0", "console=ttyS0"]) := by
  constructor
  · rfl
  · exact (bootKernelArgs_spec true
      { APIAdvertiseAddress := "10.0.0.5", TalosVersion := "v1.8.0",
        ExtraKernelArgs := "foo", Extensions := [], APIPort := 50084 } [] _ [] "amd64"
      (by rfl)).1

theorem strBytes_append (a b : String) : strBytes (a ++ b) = strBytes a ++ strBytes b := by
  simp [strBytes]

/-- C5: `/ipxe/{script}` response mapping.  Anything other than `init.ipxe`
and `boot.ipxe` gets a 404; `init.ipxe` gets the init-script bytes as
`text/plain` with status 200; `boot.ipxe` gets status 200 with body exactly
`#!ipxe\nchain --replace {url}\n` when the image-factory call succeeds, and
status 500 with a plain-text body ending in the error message when it
fails. -/
theorem ServeHTTP_response_mapping (handler : Handler) (factory : FactoryFn)
    (script uuid mac arch : String) :
    (script ≠ initScriptName → script ≠ bootScriptName →
      ServeHTTP handler factory script uuid mac arch =
        { status := 404, contentType := none, body := [] }) ∧
    (script = initScriptName →
      ServeHTTP handler factory script uuid mac arch =
        { status := 200, contentType := some "text/plain",
          body := handler.initScript }) ∧
    (script = bootScriptName →
      (∀ u, factory handler.options.TalosVersion (normalizeArch arch)
          handler.options.Extensions (bootKernelArgs handler arch) = .ok u →
        ServeHTTP handler factory script uuid mac arch =
          { status := 200, contentType := none,
            body := strBytes ("#!ipxe\nchain --replace " ++ u ++ "\n") }) ∧
      (∀ e, factory handler.options.TalosVersion (normalizeArch arch)
          handler.options.Extensions (bootKernelArgs handler arch) = .error e →
        ServeHTTP handler factory script uuid mac arch =
          { status := 500, contentType := none,
            body := strBytes "failed to get iPXE script: failed to get schematic IPXE URL: "
              ++ strBytes e })) := by
  refine ⟨?_, ?_, ?_⟩
  · intro hni hnb
    simp [ServeHTTP, hni, hnb]
  · intro hi
    simp [ServeHTTP, hi, initScriptName]
  · intro hb
    subst hb
    constructor
    · intro u hfac
      by_cases harch : arch = "arm64" <;>
        simp_all [ServeHTTP, bootViaFactoryIPXEScript, bootKernelArgs, normalizeArch,
          bootScriptName, initScriptName]
    · intro e hfac
      by_cases harch : arch = "arm64" <;>
        · simp_all [ServeHTTP, bootViaFactoryIPXEScript, bootKernelArgs, normalizeArch,
            bootScriptName, initScriptName, ← strBytes_append]
          rw [← String.append_assoc]
          rfl

/-- Witness for C5 at a concrete handler, one per branch of the mapping:
an unknown script name, the init script, and a successful boot request
against a deterministic factory. -/
theorem ServeHTTP_response_mapping_witness :
    ("unknown.ipxe" : String) ≠ initScriptName ∧
    ("unknown.ipxe" : String) ≠ bootScriptName ∧
    ServeHTTP
        { kernelArgs := [], initScript := strBytes "#!ipxe\n",
          options :=
            { APIAdvertiseAddress := "10.0.0.5", TalosVersion := "v1.8.0",
              ExtraKernelArgs := "", Extensions := [], APIPort := 50084 } }
        (fun _ _ _ _ => .ok "https://pxe.factory.talos.dev/pxe/abc/v1.8.0/metal-amd64")
        "unknown.ipxe" "u" "m" "amd64" =
      { status := 404, contentType := none, body := [] } ∧
    ServeHTTP
        { kernelArgs := [], initScript := strBytes "#!ipxe\n",
          options :=
            { APIAdvertiseAddress := "10.0.0.5", TalosVersion := "v1.8.0",
              ExtraKernelArgs := "", Extensions := [], APIPort := 50084 } }
        (fun _ _ _ _ => .ok "https://pxe.factory.talos.dev/pxe/abc/v1.8.0/metal-amd64")
        bootScriptName "u" "m" "amd64" =
      { status := 200, contentType := none,
        body := strBytes ("#!ipxe\nchain --replace " ++
          "https://pxe.factory.talos.dev/pxe/abc/v1.8.0/metal-amd64" ++ "\n") } := by
  refine ⟨by decide, by decide, ?_, ?_⟩
  · exact (ServeHTTP_response_mapping
      { kernelArgs := [], initScript := strBytes "#!ipxe\n",
        options :=
          { APIAdvertiseAddress := "10.0.0.5", TalosVersion := "v1.8.0",
            ExtraKernelArgs := "", Extensions := [], APIPort := 50084 } }
      (fun _ _ _ _ => .ok "https://pxe.factory.talos.dev/pxe/abc/v1.8.0/metal-amd64")
      "unknown.ipxe" "u" "m" "amd64").1 (by decide) (by decide)
  · exact ((ServeHTTP_response_mapping
      { kernelArgs := [], initScript := strBytes "#!ipxe\n",
        options :=
          { APIAdvertiseAddress := "10.0.0.5", TalosVersion := "v1.8.0",
            ExtraKernelArgs := "", Extensions := [], APIPort := 50084 } }
      (fun _ _ _ _ => .ok "https://pxe.factory.talos.dev/pxe/abc/v1.8.0/metal-amd64")
      bootScriptName "u" "m" "amd64").2.2 rfl).1
      "https://pxe.factory.talos.dev/pxe/abc/v1.8.0/metal-amd64" rfl

theorem patchBinaries_forall2 {script : List Nat} {inputs outs : List (List Nat)}
    (h : patchBinaries script inputs = .ok outs) :
    List.Forall₂ (fun c o => patchScript c script = .ok o) inputs outs := by
  induction inputs generalizing outs with
  | nil =>
    simp only [patchBinaries, Except.ok.injEq] at h
    subst h
    exact .nil
  | cons c rest ih =>
    simp only [patchBinaries] at h
    cases hp : patchScript c script with
    | error e =>
      rw [hp] at h
      cases h
    | ok o =>
      rw [hp] at h
      cases hr : patchBinaries script rest with
      | error e =>
        rw [hr] at h
        cases h
      | ok os =>
        rw [hr] at h
        simp only [Except.ok.injEq] at h
        subst h
        exact .cons hp (ih hr)

theorem NewHandler_ok {configServerEnabled : Bool} {opts : HandlerOptions}
    {inputs : List (List Nat)} {handler : Handler} {outs : List (List Nat)}
    (hok : NewHandler configServerEnabled opts inputs = .ok (handler, outs)) :
    handler.kernelArgs =
      (if configServerEnabled then
        stringFields opts.ExtraKernelArgs ++ [KernelParamConfig ++ "=" ++
          ("http://" ++
            JoinHostPort opts.APIAdvertiseAddress (toString opts.APIPort) ++
            "/config?u=$\x7buuid\x7d")]
      else stringFields opts.ExtraKernelArgs) ∧
    handler.initScript = buildInitScript opts.APIAdvertiseAddress opts.APIPort ∧
    handler.options = opts ∧
    patchBinaries (buildInitScript opts.APIAdvertiseAddress opts.APIPort) inputs =
      .ok outs := by
  obtain ⟨ka, scr, op⟩ := handler
  cases hpbm : patchBinaries
      (buildInitScript opts.APIAdvertiseAddress opts.APIPort) inputs with
  | error e =>
    simp [NewHandler, hpbm] at hok
  | ok o =>
    simp only [NewHandler, hpbm, Except.ok.injEq, Prod.mk.injEq, Handler.mk.injEq] at hok
    obtain ⟨⟨hka, hscr, hop⟩, ho⟩ := hok
    subst ho
    exact ⟨hka.symm, hscr.symm, hop.symm, rfl⟩

/-- C10: init-script identity.  For every successfully constructed handler,
the byte buffer served at `GET /ipxe/init.ipxe` is the very byte sequence that
was patched into every iPXE binary during construction; it is a function of
`(APIAdvertiseAddress, APIPort)` alone, and each patched artifact carries it
at its former placeholder offset, so the HTTP endpoint embedded in the
TFTP-served artifacts and the script served over HTTP agree. -/
theorem initScript_identity (configServerEnabled : Bool) (opts : HandlerOptions)
    (inputs : List (List Nat)) (handler : Handler) (outs : List (List Nat))
    (hok : NewHandler configServerEnabled opts inputs = .ok (handler, outs)) :
    handler.initScript = buildInitScript opts.APIAdvertiseAddress opts.APIPort ∧
    (∀ factory uuid mac arch,
      (ServeHTTP handler factory initScriptName uuid mac arch).body =
        handler.initScript) ∧
    patchBinaries handler.initScript inputs = .ok outs ∧
    List.Forall₂ (fun c o => patchScript c handler.initScript = .ok o) inputs outs ∧
    (∀ c o, patchScript c handler.initScript = .ok o →
      ∃ s, bytesIndex c placeholderStart = some s ∧
        startsList handler.initScript (o.drop s) = true) := by
  obtain ⟨hka, hscr, hop, hpbm⟩ := NewHandler_ok hok
  refine ⟨hscr, ?_, ?_, ?_, ?_⟩
  · intro factory uuid mac arch
    simp [ServeHTTP]
  · rw [hscr]
    exact hpbm
  · rw [hscr]
    exact patchBinaries_forall2 hpbm
  · rw [hscr]
    exact fun c o hp => patchScript_ok_script_at hp

/-- Witness for C10 at a concrete handler construction (no binaries on disk,
config serving off). -/
theorem initScript_identity_witness :
    NewHandler false
      { APIAdvertiseAddress := "10.0.0.5", TalosVersion := "v1.8.0",
        ExtraKernelArgs := "", Extensions := [], APIPort := 50084 } [] =
      .ok ({ kernelArgs := [], initScript := buildInitScript "10.0.0.5" 50084,
             options :=
              { APIAdvertiseAddress := "10.0.0.5", TalosVersion := "v1.8.0",
                ExtraKernelArgs := "", Extensions := [], APIPort := 50084 } }, []) ∧
    ({ kernelArgs := [], initScript := buildInitScript "10.0.0.5" 50084,
       options :=
        { APIAdvertiseAddress := "10.0.0.5", TalosVersion := "v1.8.0",
          ExtraKernelArgs := "", Extensions := [], APIPort := 50084 } } : Handler).initScript =
      buildInitScript "10.0.0.5" 50084 :=
  ⟨rfl,
    (initScript_identity false
      { APIAdvertiseAddress := "10.0.0.5", TalosVersion := "v1.8.0",
        ExtraKernelArgs := "", Extensions := [], APIPort := 50084 } [] _ [] rfl).1⟩

/-- Embeds `determineAPIAdvertiseAddress` from the server `Run` path: an
explicitly configured advertise address wins; otherwise the host's routable
IPs (the external `ip.RoutableIPs`, passed in as `routable`) must number
exactly one. -/
def determineAPIAdvertiseAddress (configured : String)
    (routable : Except String (List String)) : Except String String :=
  if configured ≠ "" then .ok configured
  else
    match routable with
    | .error e => .error ("failed to get routable IPs: " ++ e)
    | .ok routableIPs =>
      if routableIPs.length ≠ 1 then
        .error "expected exactly one routable IP; specify API advertise address explicitly"
      else .ok (routableIPs.headI)

/-- First statement of `Server.Run`: a failing address determination is
wrapped and returned, aborting startup. -/
def runAdvertiseStep (configured : String)
    (routable : Except String (List String)) : Except String String :=
  match determineAPIAdvertiseAddress configured routable with
  | .error e => .error ("failed to determine API advertise address: " ++ e)
  | .ok a => .ok a

/-- C6: an explicitly configured advertise address is returned unchanged;
otherwise the operation succeeds exactly when there is exactly one routable
IP, returning it, and any other count is an error which `Run` propagates,
aborting startup. -/
theorem determineAPIAdvertiseAddress_spec (configured : String)
    (routable : Except String (List String)) :
    (configured ≠ "" →
      determineAPIAdvertiseAddress configured routable = .ok configured) ∧
    (configured = "" → ∀ ips, routable = .ok ips →
      ((∃ a, determineAPIAdvertiseAddress configured routable = .ok a) ↔
        ips.length = 1) ∧
      (∀ a, ips = [a] →
        determineAPIAdvertiseAddress configured routable = .ok a) ∧
      (ips.length ≠ 1 →
        (∃ e, determineAPIAdvertiseAddress configured routable = .error e) ∧
        ∃ e, runAdvertiseStep configured routable = .error e)) := by
  constructor
  · intro hc
    simp [determineAPIAdvertiseAddress, hc]
  · intro hc ips hips
    subst hc
    refine ⟨?_, ?_, ?_⟩
    · constructor
      · rintro ⟨a, ha⟩
        by_cases hlen : ips.length ≠ 1
        · simp [determineAPIAdvertiseAddress, hips, hlen] at ha
        · omega
      · intro hlen
        refine ⟨ips.headI, ?_⟩
        simp [determineAPIAdvertiseAddress, hips, hlen]
    · rintro a rfl
      simp [determineAPIAdvertiseAddress, hips]
    · intro hlen
      refine
        ⟨⟨"expected exactly one routable IP; specify API advertise address explicitly", ?_⟩,
          ⟨"failed to determine API advertise address: " ++
            "expected exactly one routable IP; specify API advertise address explicitly", ?_⟩⟩
      · simp [determineAPIAdvertiseAddress, hips, hlen]
      · simp [runAdvertiseStep, determineAPIAdvertiseAddress, hips, hlen]

/-- Witness for C6: the explicit-address branch and the single-routable-IP
branch at concrete inputs. -/
theorem determineAPIAdvertiseAddress_spec_witness :
    ("10.0.0.5" : String) ≠ "" ∧
    determineAPIAdvertiseAddress "10.0.0.5" (.ok ["192.168.1.7"]) = .ok "10.0.0.5" ∧
    determineAPIAdvertiseAddress "" (.ok ["192.168.1.7"]) = .ok "192.168.1.7" :=
  ⟨by decide,
    (determineAPIAdvertiseAddress_spec "10.0.0.5" (.ok ["192.168.1.7"])).1 (by decide),
    ((determineAPIAdvertiseAddress_spec "" (.ok ["192.168.1.7"])).2 rfl
      ["192.168.1.7"] rfl).2.1 "192.168.1.7" rfl⟩

/-- Embeds `getExtraKernelArgs` from the CLI entrypoint shipped in the
repository README: the non-empty `--extra-kernel-args` flag value wins, then
the non-empty `EXTRA_KERNEL_ARGS` environment value, then the free positional
arguments joined with single spaces, else the empty string. -/
def getExtraKernelArgs (flagValue envValue : String) (args : List String) : String :=
  if flagValue ≠ "" then flagValue
  else if envValue ≠ "" then envValue
  else if args.length > 0 then String.intercalate " " args
  else ""

/-- C7: extra-kernel-args precedence is flag > environment > positional
arguments joined with single spaces > empty string. -/
theorem getExtraKernelArgs_precedence (flagValue envValue : String)
    (args : List String) :
    (flagValue ≠ "" → getExtraKernelArgs flagValue envValue args = flagValue) ∧
    (flagValue = "" → envValue ≠ "" →
      getExtraKernelArgs flagValue envValue args = envValue) ∧
    (flagValue = "" → envValue = "" → args ≠ [] →
      getExtraKernelArgs flagValue envValue args = String.intercalate " " args) ∧
    (flagValue = "" → envValue = "" → args = [] →
      getExtraKernelArgs flagValue envValue args = "") := by
  refine ⟨?_, ?_, ?_, ?_⟩
  · intro hf
    simp [getExtraKernelArgs, hf]
  · intro hf he
    simp [getExtraKernelArgs, hf, he]
  · intro hf he ha
    have : args.length > 0 := List.length_pos.mpr ha
    simp [getExtraKernelArgs, hf, he, this]
  · intro hf he ha
    subst ha
    simp [getExtraKernelArgs, hf, he]

/-- Witness for C7: each precedence level at concrete values. -/
theorem getExtraKernelArgs_precedence_witness :
    getExtraKernelArgs "flagval" "envval" ["a", "b"] = "flagval" ∧
    getExtraKernelArgs "" "envval" ["a", "b"] = "envval" ∧
    getExtraKernelArgs "" "" ["a", "b"] = String.intercalate " " ["a", "b"] ∧
    getExtraKernelArgs "" "" [] = "" :=
  ⟨(getExtraKernelArgs_precedence "flagval" "envval" ["a", "b"]).1 (by decide),
    (getExtraKernelArgs_precedence "" "envval" ["a", "b"]).2.1 rfl (by decide),
    (getExtraKernelArgs_precedence "" "" ["a", "b"]).2.2.1 rfl rfl (by decide),
    (getExtraKernelArgs_precedence "" "" []).2.2.2 rfl rfl rfl⟩

/-- Result of one component's `run` function: `none` is a nil error. -/
abbrev CompResult := Option String

/-- First non-nil error in a list of component results, the value
`errgroup.Wait` reports (the first goroutine to return a non-nil error in
completion order wins). -/
def firstErr : List CompResult → Option String
  | [] => none
  | none :: rest => firstErr rest
  | some e :: _ => some e

/-- Observable events of one `runComponents` execution, in temporal order. -/
inductive SupEvent where
  | compReturned (i : Nat) (r : CompResult)
  | ctxCancelled
  | supReturned (r : Option String)
deriving DecidableEq

/-- Embeds `runComponents` from the server package denotationally: each
goroutine body runs its component's `run` and then its deferred `cancel`
fires; `eg.Wait` collects the first non-nil error in completion order, which
`runComponents` wraps with `failed to run components`.  A schedule lists
`(component index, result)` pairs in the temporal order the `run` calls
return; the value is the event trace paired with the returned error. -/
def runComponents (sched : List (Nat × CompResult)) : List SupEvent × Option String :=
  let events :=
    sched.flatMap fun c => [SupEvent.compReturned c.1 c.2, SupEvent.ctxCancelled]
  let werr := firstErr (sched.map Prod.snd)
  let res := werr.map fun e => "failed to run components: " ++ e
  (events ++ [SupEvent.supReturned res], res)

theorem firstErr_eq_none_iff (l : List CompResult) :
    firstErr l = none ↔ ∀ r ∈ l, r = none := by
  induction l with
  | nil => simp [firstErr]
  | cons r rest ih =>
    cases r with
    | none => simpa [firstErr] using ih
    | some e => simp [firstErr]

theorem cancel_follows_compReturned (sched : List (Nat × CompResult))
    (res : Option String) (k i : Nat) (r : CompResult)
    (h : ((sched.flatMap fun c => [SupEvent.compReturned c.1 c.2, SupEvent.ctxCancelled]) ++
        [SupEvent.supReturned res]).get? k = some (SupEvent.compReturned i r)) :
    ((sched.flatMap fun c => [SupEvent.compReturned c.1 c.2, SupEvent.ctxCancelled]) ++
      [SupEvent.supReturned res]).get? (k + 1) = some SupEvent.ctxCancelled := by
  induction sched generalizing k with
  | nil =>
    cases k with
    | zero => simp at h
    | succ k => simp at h
  | cons c rest ih =>
    match k with
    | 0 => rfl
    | 1 => simp at h
    | Nat.succ (Nat.succ k) => exact ih k h

/-- C8: supervisor contract of `runComponents`.  In every completion order of
the launched components: the supervisor's own return is the last trace event,
after every component's return; immediately after any component returns —
with or without error — the shared context is cancelled, signalling all
others; and the returned value wraps the first non-nil component error, being
nil exactly when every component returned nil. -/
theorem runComponents_supervisor_contract (components : List CompResult)
    (sched : List (Nat × CompResult)) (hperm : sched.Perm components.enum) :
    (runComponents sched).1.getLast? =
      some (SupEvent.supReturned (runComponents sched).2) ∧
    (∀ i r, (i, r) ∈ components.enum →
      SupEvent.compReturned i r ∈ (runComponents sched).1.dropLast) ∧
    (∀ k i r, (runComponents sched).1.get? k = some (SupEvent.compReturned i r) →
      (runComponents sched).1.get? (k + 1) = some SupEvent.ctxCancelled) ∧
    (runComponents sched).2 =
      (firstErr (sched.map Prod.snd)).map (fun e => "failed to run components: " ++ e) ∧
    ((runComponents sched).2 = none ↔ ∀ r ∈ components, r = none) := by
  refine ⟨?_, ?_, ?_, rfl, ?_⟩
  · simp [runComponents, List.getLast?_concat]
  · intro i r hmem
    have hmem2 : (i, r) ∈ sched := (hperm.mem_iff).mpr hmem
    simp only [runComponents, List.dropLast_concat, List.mem_flatMap]
    exact ⟨(i, r), hmem2, by simp⟩
  · intro k i r h
    exact cancel_follows_compReturned sched _ k i r h
  · have hmapped : (sched.map Prod.snd).Perm components := by
      have := hperm.map Prod.snd
      rwa [List.enum_map_snd] at this
    simp only [runComponents, Option.map_eq_none']
    rw [firstErr_eq_none_iff]
    constructor
    · intro hall r hr
      exact hall r (hmapped.mem_iff.mpr hr)
    · intro hall r hr
      exact hall r (hmapped.mem_iff.mp hr)

/-- Witness for C8: two components where the second to be launched errors
first; the supervisor result is non-nil exactly because some component
errored. -/
theorem runComponents_supervisor_contract_witness :
    ([((1 : Nat), (some "boom" : CompResult)), (0, none)]).Perm
      ([(none : CompResult), some "boom"]).enum ∧
    ((runComponents [(1, some "boom"), (0, none)]).2 = none ↔
      ∀ r ∈ ([(none : CompResult), some "boom"]), r = none) :=
  ⟨by decide,
    (runComponents_supervisor_contract [none, some "boom"]
      [(1, some "boom"), (0, none)] (by decide)).2.2.2.2⟩

/-- Modelled from the spec: client system architectures the DHCP proxy
serves (option 93 per RFC 4578); the `internal/server/dhcp` package is not
among the provided sources. -/
inductive ClientArch where
  | biosX86
  | efiX8664
  | efiArm64
deriving DecidableEq

/-- Modelled from the spec: option-93 value mapping — `{0x0000, 0x0006}` to
BIOS/i386, `{0x0007, 0x0009}` to EFI x86_64, `{0x000b}` to EFI arm64, every
other value ignored. -/
def archFromOption93 (v : Nat) : Option ClientArch :=
  if v = 0x0000 ∨ v = 0x0006 then some .biosX86
  else if v = 0x0007 ∨ v = 0x0009 then some .efiX8664
  else if v = 0x000b then some .efiArm64
  else none

/-- Modelled from the spec: boot-filename table by (architecture,
user-class) — `undionly.kpxe` for BIOS x86, `ipxe.efi` for EFI x86_64,
`ipxe-arm64.efi` for EFI arm64, and the HTTP init-script URL for any
architecture whose user-class is `iPXE`. -/
def bootFileName (advertiseAddress : String) (apiPort : Int)
    (arch : ClientArch) (userClass : String) : String :=
  if userClass = "iPXE" then
    "http://" ++ advertiseAddress ++ ":" ++ toString apiPort ++ "/ipxe/init.ipxe"
  else
    match arch with
    | .biosX86 => "undionly.kpxe"
    | .efiX8664 => "ipxe.efi"
    | .efiArm64 => "ipxe-arm64.efi"

/-- Modelled from the spec: the fields of an incoming DHCP packet the proxy
inspects — message type (1 DISCOVER, 3 REQUEST), transaction id, client MAC,
option 93, and the option-77 user class (empty when absent). -/
structure DHCPPacket where
  msgType : Nat
  xid : Nat
  chaddr : List Nat
  option93 : Nat
  userClass : String

/-- Modelled from the spec: the reply fields the proxy emits — OFFER/ACK
message type, preserved xid and chaddr, `yiaddr`, `siaddr`/next-server,
server-identifier (option 54), vendor-class-identifier (option 60) and the
boot file name (option 67 / BOOTP `file`). -/
structure DHCPReply where
  msgType : Nat
  xid : Nat
  chaddr : List Nat
  yiaddr : String
  siaddr : String
  serverIdentifier : String
  vendorClassIdentifier : String
  bootFileName : String

/-- Modelled from the spec: the proxy's per-packet decision — respond only to
DISCOVER/REQUEST from a recognized architecture, preserving xid and chaddr,
allocating no address (`yiaddr` zero), advertising itself via `siaddr` and
option 54, marking the reply `PXEClient`, and selecting the boot file from
the table. -/
def handleDHCPPacket (advertiseAddress : String) (apiPort : Int)
    (pkt : DHCPPacket) : Option DHCPReply :=
  if pkt.msgType ≠ 1 ∧ pkt.msgType ≠ 3 then none
  else
    match archFromOption93 pkt.option93 with
    | none => none
    | some arch =>
      some { msgType := if pkt.msgType = 1 then 2 else 5
             xid := pkt.xid
             chaddr := pkt.chaddr
             yiaddr := "0.0.0.0"
             siaddr := advertiseAddress
             serverIdentifier := advertiseAddress
             vendorClassIdentifier := "PXEClient"
             bootFileName := bootFileName advertiseAddress apiPort arch pkt.userClass }

/-- C9: DHCP proxy-only invariant.  Every reply the proxy emits has
`yiaddr = 0.0.0.0`, vendor-class-identifier `PXEClient`, `siaddr` (and
server-identifier) equal to the advertise address, and the boot filename
given by the (architecture, user-class) table; packets with any other
option-93 value are ignored. -/
theorem dhcp_reply_invariant (advertiseAddress : String) (apiPort : Int)
    (pkt : DHCPPacket) :
    (∀ rep, handleDHCPPacket advertiseAddress apiPort pkt = some rep →
      rep.yiaddr = "0.0.0.0" ∧
      rep.vendorClassIdentifier = "PXEClient" ∧
      rep.siaddr = advertiseAddress ∧
      rep.serverIdentifier = advertiseAddress ∧
      (pkt.userClass = "iPXE" →
        rep.bootFileName =
          "http://" ++ advertiseAddress ++ ":" ++ toString apiPort ++ "/ipxe/init.ipxe") ∧
      (pkt.userClass ≠ "iPXE" →
        (archFromOption93 pkt.option93 = some .biosX86 ∧
            rep.bootFileName = "undionly.kpxe") ∨
        (archFromOption93 pkt.option93 = some .efiX8664 ∧
            rep.bootFileName = "ipxe.efi") ∨
        (archFromOption93 pkt.option93 = some .efiArm64 ∧
            rep.bootFileName = "ipxe-arm64.efi"))) ∧
    (archFromOption93 pkt.option93 = none →
      handleDHCPPacket advertiseAddress apiPort pkt = none) := by
  constructor
  · intro rep hrep
    by_cases hmsg : pkt.msgType ≠ 1 ∧ pkt.msgType ≠ 3
    · simp [handleDHCPPacket, hmsg] at hrep
    · cases harch : archFromOption93 pkt.option93 with
      | none => simp [handleDHCPPacket, hmsg, harch] at hrep
      | some arch =>
        simp only [handleDHCPPacket, if_neg hmsg, harch, Option.some.injEq] at hrep
        subst hrep
        refine ⟨rfl, rfl, rfl, rfl, ?_, ?_⟩
        · intro huc
          simp [bootFileName, huc]
        · intro huc
          cases arch with
          | biosX86 => exact Or.inl ⟨rfl, by simp [bootFileName, huc]⟩
          | efiX8664 => exact Or.inr (Or.inl ⟨rfl, by simp [bootFileName, huc]⟩)
          | efiArm64 => exact Or.inr (Or.inr ⟨rfl, by simp [bootFileName, huc]⟩)
  · intro harch
    by_cases hmsg : pkt.msgType ≠ 1 ∧ pkt.msgType ≠ 3 <;>
      simp [handleDHCPPacket, hmsg, harch]

/-- Witness for C9: a raw-BIOS DISCOVER (option 93 zero, no user class) gets
an OFFER-shaped reply advertising `undionly.kpxe` with zero `yiaddr`. -/
theorem dhcp_reply_invariant_witness :
    handleDHCPPacket "10.0.0.5" 50084
        { msgType := 1, xid := 42, chaddr := [0xde, 0xad], option93 := 0,
          userClass := "" } =
      some { msgType := 2, xid := 42, chaddr := [0xde, 0xad], yiaddr := "0.0.0.0",
             siaddr := "10.0.0.5", serverIdentifier := "10.0.0.5",
             vendorClassIdentifier := "PXEClient", bootFileName := "undionly.kpxe" } ∧
    ({ msgType := 2, xid := 42, chaddr := [0xde, 0xad], yiaddr := "0.0.0.0",
       siaddr := "10.0.0.5", serverIdentifier := "10.0.0.5",
       vendorClassIdentifier := "PXEClient",
       bootFileName := "undionly.kpxe" } : DHCPReply).yiaddr = "0.0.0.0" :=
  ⟨by rfl,
    ((dhcp_reply_invariant "10.0.0.5" 50084
      { msgType := 1, xid := 42, chaddr := [0xde, 0xad], option93 := 0,
        userClass := "" }).1 _ (by rfl)).1⟩

end Booter
